import Mathlib

/-!
Verification of the process lifecycle orchestrator in
`main/xiaozhi-server/app.py` (the `wait_for_exit`, `monitor_stdin` and
`main` coroutines), via a shallow embedding: the asyncio control flow is
translated into pure Lean functions over explicit states and event traces.
-/

namespace XiaozhiApp

/-! ## Signal watcher (`wait_for_exit`)

`wait_for_exit` has two branches.  On non-Windows platforms it registers
`stop_event.set` as the handler for `signal.SIGINT` and `signal.SIGTERM`
on the running loop and awaits `stop_event.wait()`.  On Windows it awaits
a bare `asyncio.Future()` (which never completes) inside a
`try ... except KeyboardInterrupt: pass`. -/

/-- The two OS signals handled by `wait_for_exit`:
`for sig in (signal.SIGINT, signal.SIGTERM)`. -/
inductive Sig where
  | sigint
  | sigterm
deriving DecidableEq, Repr

/-- State of the Unix branch of `wait_for_exit`: which signals currently
have a registered handler (the handler is always `stop_event.set`), and
whether the `asyncio.Event` named `stop_event` has been set. -/
structure SigState where
  handlers : Sig → Bool
  eventSet : Bool

/-- `loop.add_signal_handler(sig, stop_event.set)`: register the handler
for `sig`, replacing any previous one (asyncio keeps one handler per
signal). -/
def add_signal_handler (st : SigState) (s : Sig) : SigState :=
  { st with handlers := fun x => if x = s then true else st.handlers x }

/-- The handler-registration loop of `wait_for_exit` run from a given
initial state: `for sig in (signal.SIGINT, signal.SIGTERM):
loop.add_signal_handler(sig, stop_event.set)`. -/
def registerHandlers (st : SigState) : SigState :=
  ([Sig.sigint, Sig.sigterm]).foldl add_signal_handler st

/-- The state after `wait_for_exit` creates a fresh `asyncio.Event` and
runs its registration loop: no handlers, event unset, then both handlers
installed. -/
def wait_for_exit_setup : SigState :=
  registerHandlers { handlers := fun _ => false, eventSet := false }

/-- Delivery of one OS signal: if a handler is registered for it, the
handler (`stop_event.set`) runs, setting the event; otherwise nothing
observable happens to the watcher. -/
def deliverSignal (st : SigState) (s : Sig) : SigState :=
  if st.handlers s then { st with eventSet := true } else st

/-- Delivery of a sequence of OS signals, in order. -/
def deliverAll (st : SigState) (sigs : List Sig) : SigState :=
  sigs.foldl deliverSignal st

/-- Number of times the termination event *fires* (transitions from unset
to set) along a delivery sequence.  `stop_event.set` on an already-set
event is a no-op, so only unset-to-set transitions count. -/
def fireCount : SigState → List Sig → Nat
  | _, [] => 0
  | st, s :: rest =>
      let st' := deliverSignal st s
      (if st'.eventSet && !st.eventSet then 1 else 0) + fireCount st' rest

/-- `await stop_event.wait()` resolves exactly when the event is set. -/
def waitResolved (st : SigState) : Bool := st.eventSet

/-! ## Windows branch of `wait_for_exit` -/

/-- Exceptions relevant to the embedded fragments. -/
inductive PyExc where
  | keyboardInterrupt
  | cancelledError
  | other (msg : String)
deriving DecidableEq, Repr

/-- Outcome of awaiting a coroutine: it may still be pending (never
completes), raise an exception, or return a value. -/
inductive AwaitResult where
  | pending
  | raised (e : PyExc)
  | value
deriving DecidableEq, Repr

/-- `await asyncio.Future()`: a bare future has no natural completion, so
the await stays pending forever unless the runtime propagates a
`KeyboardInterrupt` into it (Windows Ctrl-C behaviour), in which case the
await raises that interrupt. -/
def bareFutureAwait (interrupted : Bool) : AwaitResult :=
  if interrupted then .raised .keyboardInterrupt else .pending

/-- The Windows branch of `wait_for_exit`:
`try: await asyncio.Future() except KeyboardInterrupt: pass`.
A `KeyboardInterrupt` raised out of the await is caught by the `except`
clause and turned into a normal return; any other outcome of the await is
unaffected. -/
def wait_for_exit_win (interrupted : Bool) : AwaitResult :=
  match bareFutureAwait interrupted with
  | .raised .keyboardInterrupt => .value
  | r => r

/-! ## Stdin monitor (`monitor_stdin`)

`async def monitor_stdin(): while True: await ainput()` — an infinite
loop whose body awaits one full line of input and ignores the value.  Its
execution is modelled with fuel (number of loop iterations observed), an
optional external cancellation delivered at the task's k-th suspension
point, and the pending input lines. -/

/-- Observable outcome of running a task for a bounded number of steps. -/
inductive RunOutcome where
  | stillRunning
  | cancelled
  | returned
deriving DecidableEq, Repr

/-- Run `monitor_stdin` for `fuel` loop iterations over the pending input
`lines`, with a cancellation request arriving at the `cancelAt`-th
suspension point (if any).  Each iteration suspends on `await ainput()`;
a pending cancellation is observed at that suspension point; otherwise
one line is consumed and discarded and the loop repeats.  Returns the
outcome and the input lines not yet consumed. -/
def monitor_stdin : Nat → Option Nat → List String → RunOutcome × List String
  | 0, _, lines => (.stillRunning, lines)
  | _ + 1, some 0, lines => (.cancelled, lines)
  | fuel + 1, some (k + 1), _line :: rest => monitor_stdin fuel (some k) rest
  | fuel + 1, none, _line :: rest => monitor_stdin fuel none rest
  | _ + 1, some (_ + 1), [] => (.stillRunning, [])
  | _ + 1, none, [] => (.stillRunning, [])

/-! ## The `main` coroutine: tasks and the shutdown sequence

`main` spawns three tasks (`stdin_task = asyncio.create_task(monitor_stdin())`,
`xiaozhi_task = asyncio.create_task(xiaozhi_server.start())`,
`ota_task = asyncio.create_task(ota_server.start())`), then runs

    try:      await wait_for_exit()
    except asyncio.CancelledError: print(...)
    finally:  <stop facade; cancel all three tasks; bounded join; print>

The `finally` block is embedded as a trace of observable events. -/

/-- The three background tasks created by `main`. -/
inductive TaskId where
  | stdinTask
  | xiaozhiTask
  | otaTask
deriving DecidableEq, Repr

/-- All tasks, in the order `main` creates and cancels them. -/
def allTasks : List TaskId := [.stdinTask, .xiaozhiTask, .otaTask]

/-- Observable events of the shutdown path of `main`. -/
inductive Ev where
  /-- `await xiaozhi_server.stop()` has been attempted and awaited
  (completed normally or by raising). -/
  | stopAttempted
  /-- The `except Exception as e` handler around the stop call ran:
  `logger.error(f"停止小智服务器失败: {e}")`. -/
  | stopFailureLogged
  /-- `t.cancel()` was issued on the given task. -/
  | cancelRequested (t : TaskId)
  /-- `await asyncio.wait(tasks_to_wait, timeout=3.0, ...)` completed. -/
  | joinWaited
  /-- `print("服务器已关闭，程序退出。")` ran. -/
  | shutdownPrinted
  /-- `print("任务被取消，清理资源中...")` from the `except
  asyncio.CancelledError` clause around `await wait_for_exit()`. -/
  | cancelMsgPrinted
deriving DecidableEq, Repr

/-- Result of `await xiaozhi_server.stop()`: normal completion or an
exception (carrying its message). -/
inductive StopResult where
  | ok
  | failed (msg : String)
deriving DecidableEq, Repr

/-- Time is measured in the spec's time units; `asyncio.wait` is called
with `timeout=3.0`. -/
def joinTimeout : ℚ := 3

/-- Whether a task, once cancelled, reaches a terminal state within `T`
time units after the cancellation, given each task's completion time
(`none` means the task never finishes, e.g. it ignores cancellation). -/
def finishedWithin (ft : TaskId → Option ℚ) (t : TaskId) (T : ℚ) : Bool :=
  match ft t with
  | some d => decide (d ≤ T)
  | none => false

/-- `await asyncio.wait(tasks, timeout=3.0, return_when=ALL_COMPLETED)`:
returns the pair (done, pending) of tasks together with the elapsed wait
time.  The call returns as soon as every task is done, and in any case no
later than the timeout; tasks still running at that point are simply left
in `pending`. -/
def asyncioWait (tasks : List TaskId) (ft : TaskId → Option ℚ) (timeout : ℚ) :
    List TaskId × List TaskId × ℚ :=
  let done := tasks.filter (fun t => finishedWithin ft t timeout)
  let pending := tasks.filter (fun t => !finishedWithin ft t timeout)
  let elapsed :=
    if tasks.all (fun t => finishedWithin ft t timeout) then
      tasks.foldr (fun t m => max ((ft t).getD 0) m) 0
    else timeout
  (done, pending, elapsed)

/-- `try: await xiaozhi_server.stop() except Exception as e:
logger.error(f"停止小智服务器失败: {e}")` — the guarded stop call.  The
await always completes (the stop attempt is awaited); an exception raised
by it is caught by the `except Exception` clause, which logs it, so the
guarded statement itself raises nothing: its second component (what
escapes the statement) is always `.ok`. -/
def stopTryExcept (stop : StopResult) : List Ev × Except String Unit :=
  match stop with
  | .ok => ([.stopAttempted], .ok ())
  | .failed _ => ([.stopAttempted, .stopFailureLogged], .ok ())

/-- Full outcome of the `finally` block of `main`: its event trace, the
join result of the bounded wait, and what exception (if any) escapes the
block. -/
structure CleanupResult where
  trace : List Ev
  done : List TaskId
  pending : List TaskId
  elapsed : ℚ
  escaped : Except String Unit

/-- The `finally` block of `main`.  In source order:
1. the guarded stop call (`stopTryExcept`);
2. `stdin_task.cancel(); xiaozhi_task.cancel(); if ota_task: ota_task.cancel()`
   (`ota_task` is the object returned by `asyncio.create_task`, which is
   always truthy, so the ota cancel always runs);
3. `tasks_to_wait = [stdin_task, xiaozhi_task]` plus `ota_task` (same
   truthy test), then `await asyncio.wait(tasks_to_wait, timeout=3.0,
   return_when=asyncio.ALL_COMPLETED)`;
4. `print("服务器已关闭，程序退出。")`.
Statements 2–4 raise nothing, so what escapes the block is exactly what
escapes the guarded stop call. -/
def cleanupFinally (stop : StopResult) (ft : TaskId → Option ℚ) :
    CleanupResult :=
  let sg := stopTryExcept stop
  let cancelEvents : List Ev := allTasks.map .cancelRequested
  let join := asyncioWait allTasks ft joinTimeout
  { trace := sg.1 ++ cancelEvents ++ [.joinWaited, .shutdownPrinted]
    done := join.1
    pending := join.2.1
    elapsed := join.2.2
    escaped := sg.2 }

/-- How the waiting phase `await wait_for_exit()` ends inside `main`'s
`try`: either the await returns normally (a termination trigger arrived)
or `main`'s own task is cancelled, throwing `asyncio.CancelledError` into
the await. -/
inductive WaitPhase where
  | normal
  | cancelledByRuntime
deriving DecidableEq, Repr

/-- The whole `try/except/finally` tail of `main`: the `except
asyncio.CancelledError` clause prints `"任务被取消，清理资源中..."` and
swallows the cancellation, and the `finally` block runs on both exit
paths; what escapes the whole construct is what escapes the `finally`
block. -/
def mainShutdown (w : WaitPhase) (stop : StopResult) (ft : TaskId → Option ℚ) :
    CleanupResult :=
  let pre : List Ev :=
    match w with
    | .normal => []
    | .cancelledByRuntime => [.cancelMsgPrinted]
  let fin := cleanupFinally stop ft
  { fin with trace := pre ++ fin.trace }

/-- One full process run, from the signal watcher's point of view: the
given OS signals are delivered to the installed handlers; `await
wait_for_exit()` returns iff the termination event was set, and only then
does `main` fall through to its `finally` shutdown.  If no trigger ever
resolves the wait, `main` blocks forever and no shutdown trace exists. -/
def processRun (sigs : List Sig) (stop : StopResult) (ft : TaskId → Option ℚ) :
    Option (List Ev) :=
  if waitResolved (deliverAll wait_for_exit_setup sigs) then
    some (mainShutdown .normal stop ft).trace
  else none

/-- Number of shutdown-sequence executions recorded in a trace, counted
by its entry event (the stop attempt). -/
def shutdownCount : Option (List Ev) → Nat
  | none => 0
  | some tr => tr.count .stopAttempted

/-! ## Startup configuration mutations in `main`

`config = load_config()` yields a mutable mapping.  The startup phase of
`main` touches it in two places:

    auth_key = config.get("manager-api", {}).get("secret", "")
    if not auth_key or len(auth_key) == 0 or "你" in auth_key:
        auth_key = str(uuid.uuid4().hex)
    config["server"]["auth_key"] = auth_key

and, for `mcp_endpoint = config.get("mcp_endpoint", None)`:

    if mcp_endpoint is not None and "你" not in mcp_endpoint:
        if validate_mcp_endpoint(mcp_endpoint):
            mcp_endpoint = mcp_endpoint.replace("/mcp/", "/call/")
            config["mcp_endpoint"] = mcp_endpoint
        else:
            config["mcp_endpoint"] = "你的接入点 websocket地址"

The mapping is modelled as an association list of string keys to values
that are either strings or nested mappings.  `validate_mcp_endpoint`
lives in `core/utils/util` outside the visible source; the spec treats
endpoint validation as an opaque external collaborator, so it enters the
model as an arbitrary predicate parameter. -/

/-- A configuration value: a string or a nested mapping. -/
inductive Val where
  | str (s : String)
  | map (m : List (String × Val))

/-- First-match lookup in an association list (`d[k]` / `d.get(k)`). -/
def lookupA : List (String × Val) → String → Option Val
  | [], _ => none
  | (k', v) :: rest, k => if k' = k then some v else lookupA rest k

/-- `d[k] = v` on a Python dict: overwrite the existing entry if the key
is present, otherwise append a new entry. -/
def setA : List (String × Val) → String → Val → List (String × Val)
  | [], k, v => [(k, v)]
  | (k', v') :: rest, k, v =>
      if k' = k then (k, v) :: rest else (k', v') :: setA rest k v

/-- A whole configuration mapping. -/
abbrev Config := List (String × Val)

/-- `config.get("manager-api", {}).get("secret", "")`: the configured
secret, with `""` standing in for an absent sub-mapping or key (and for
a non-string value, which the code would mishandle identically at the
emptiness test). -/
def managerApiSecret (cfg : Config) : String :=
  match lookupA cfg "manager-api" with
  | some (.map m) =>
      match lookupA m "secret" with
      | some (.str s) => s
      | _ => ""
  | _ => ""

/-- The placeholder marker tested by `"你" in auth_key` (a one-character
needle, so Python substring containment is character containment). -/
def placeholderMark : Char := '你'

/-- One hexadecimal digit, as produced by `uuid.uuid4().hex`. -/
def hexDigit (n : Nat) : Char :=
  if n < 10 then Char.ofNat (48 + n) else Char.ofNat (87 + n % 16)

/-- `str(uuid.uuid4().hex)`: the 32 lowercase hex digits of a random
128-bit value `r`.  The randomness source is a parameter; the shape (32
hex characters) is fixed. -/
def uuid4Hex (r : Nat) : String :=
  String.mk ((List.range 32).map fun i => hexDigit (r / 16 ^ i % 16))

/-- The derived auth key: the configured secret if it is non-empty and
free of the placeholder marker, otherwise a freshly generated value.
(`not auth_key` and `len(auth_key) == 0` both test emptiness.) -/
def derivedAuthKey (cfg : Config) (r : Nat) : String :=
  if managerApiSecret cfg = "" ∨ (managerApiSecret cfg).length = 0 ∨
      (managerApiSecret cfg).contains placeholderMark then
    uuid4Hex r
  else managerApiSecret cfg

/-- `config["server"]["auth_key"] = auth_key`: store the derived key in
the server sub-mapping.  Indexing `config["server"]` raises `KeyError`
(here: `none`) when the key is absent, and `TypeError` when its value is
not a mapping. -/
def storeAuthKey (cfg : Config) (key : String) : Option Config :=
  match lookupA cfg "server" with
  | some (.map sm) => some (setA cfg "server" (.map (setA sm "auth_key" (.str key))))
  | _ => none

/-- The auth-key startup step of `main`, as a whole. -/
def authKeyStep (cfg : Config) (r : Nat) : Option Config :=
  storeAuthKey cfg (derivedAuthKey cfg r)

/-- The placeholder string written for an invalid endpoint. -/
def invalidEndpointText : String := "你的接入点 websocket地址"

/-- The MCP-endpoint startup step of `main`, with the external
`validate_mcp_endpoint` collaborator passed in as `validate`.  A missing
key, a non-string value (on which `"你" in mcp_endpoint` would not test
the text) and a value carrying the placeholder marker all leave the
configuration untouched. -/
def mcpEndpointStep (cfg : Config) (validate : String → Bool) : Config :=
  match lookupA cfg "mcp_endpoint" with
  | some (.str s) =>
      if ¬ s.contains placeholderMark then
        if validate s then
          setA cfg "mcp_endpoint" (.str (s.replace "/mcp/" "/call/"))
        else
          setA cfg "mcp_endpoint" (.str invalidEndpointText)
      else cfg
  | _ => cfg

/-- The two configuration-mutating startup steps of `main`, in source
order. -/
def startupConfig (cfg : Config) (r : Nat) (validate : String → Bool) :
    Option Config :=
  (authKeyStep cfg r).map (fun c => mcpEndpointStep c validate)

/-! ## Helper lemmas -/

theorem deliverSignal_eventSet_of (st : SigState) (s : Sig)
    (h : st.eventSet = true) : (deliverSignal st s).eventSet = true := by
  unfold deliverSignal
  split <;> simp [h]

theorem deliverAll_eventSet_of (sigs : List Sig) (st : SigState)
    (h : st.eventSet = true) : (deliverAll st sigs).eventSet = true := by
  induction sigs generalizing st with
  | nil => exact h
  | cons s rest ih =>
      exact ih (deliverSignal st s) (deliverSignal_eventSet_of st s h)

theorem fireCount_of_set (sigs : List Sig) (st : SigState)
    (h : st.eventSet = true) : fireCount st sigs = 0 := by
  induction sigs generalizing st with
  | nil => rfl
  | cons s rest ih =>
      simp only [fireCount, h, Bool.not_true, Bool.and_false, if_neg]
      simp [ih (deliverSignal st s) (deliverSignal_eventSet_of st s h)]

theorem fireCount_le_one (st : SigState) (sigs : List Sig) :
    fireCount st sigs ≤ 1 := by
  induction sigs generalizing st with
  | nil => simp [fireCount]
  | cons s rest ih =>
      by_cases h : st.eventSet = true
      · simp [fireCount_of_set (s :: rest) st h]
      · simp only [fireCount]
        by_cases h' : (deliverSignal st s).eventSet = true
        · simp [h, h', fireCount_of_set rest _ h']
        · simp only [h', Bool.false_and]
          simpa using ih (deliverSignal st s)

theorem setup_handlers (s : Sig) : wait_for_exit_setup.handlers s = true := by
  cases s <;> rfl

theorem setup_resolves_on_first (s : Sig) (rest : List Sig) :
    waitResolved (deliverAll wait_for_exit_setup (s :: rest)) = true := by
  have h1 : (deliverSignal wait_for_exit_setup s).eventSet = true := by
    unfold deliverSignal
    simp [setup_handlers s]
  exact deliverAll_eventSet_of rest _ h1

/-! ## Claims -/

/-- C5: on non-Windows platforms, `wait_for_exit` registers the
`stop_event.set` handler for both the interrupt signal and the terminate
signal; the arrival of whichever of the two comes first resolves the
wait; and resolution is at-most-once — from any watcher state, however
its handlers were installed, the termination event fires at most once
over any delivery sequence. -/
theorem wait_for_exit_unix_spec :
    (wait_for_exit_setup.handlers Sig.sigint = true ∧
      wait_for_exit_setup.handlers Sig.sigterm = true) ∧
    (∀ (s : Sig) (rest : List Sig),
      waitResolved (deliverAll wait_for_exit_setup (s :: rest)) = true) ∧
    (∀ (st : SigState) (sigs : List Sig), fireCount st sigs ≤ 1) := by
  exact ⟨⟨setup_handlers _, setup_handlers _⟩,
    fun s rest => setup_resolves_on_first s rest,
    fun st sigs => fireCount_le_one st sigs⟩

/-- Helper: without cancellation, `monitor_stdin` is still running after
any number of iterations, having consumed and discarded the lines read. -/
theorem monitor_stdin_none (fuel : Nat) (lines : List String) :
    monitor_stdin fuel none lines = (.stillRunning, lines.drop fuel) := by
  induction fuel generalizing lines with
  | zero => rfl
  | succ n ih =>
      cases lines with
      | nil => simp [monitor_stdin]
      | cons l rest => simpa [monitor_stdin] using ih rest

/-- Helper: `monitor_stdin` never produces a return value. -/
theorem monitor_stdin_no_result (fuel : Nat) (c : Option Nat)
    (lines : List String) : (monitor_stdin fuel c lines).1 ≠ .returned := by
  induction fuel generalizing c lines with
  | zero => simp [monitor_stdin]
  | succ n ih =>
      match c, lines with
      | none, [] => simp [monitor_stdin]
      | none, l :: rest => simpa [monitor_stdin] using ih none rest
      | some 0, lines => simp [monitor_stdin]
      | some (k + 1), [] => simp [monitor_stdin]
      | some (k + 1), l :: rest => simpa [monitor_stdin] using ih (some k) rest

/-- Helper: a cancellation request delivered at a suspension point the
loop reaches makes `monitor_stdin` terminate as cancelled. -/
theorem monitor_stdin_cancel (fuel k : Nat) (lines : List String)
    (h1 : k < fuel) (h2 : k ≤ lines.length) :
    (monitor_stdin fuel (some k) lines).1 = .cancelled := by
  induction fuel generalizing k lines with
  | zero => omega
  | succ n ih =>
      cases k with
      | zero => rfl
      | succ k' =>
          cases lines with
          | nil => simp at h2
          | cons l rest =>
              exact ih k' rest (by omega) (by simpa using h2)

/-- C7: the stdin monitor loops forever — each iteration suspends for
one full line, discards it, and repeats; it never produces a result
value; and it terminates exactly when externally cancelled (at any
suspension point its loop reaches). -/
theorem monitor_stdin_spec :
    (∀ (fuel : Nat) (lines : List String),
      monitor_stdin fuel none lines = (.stillRunning, lines.drop fuel)) ∧
    (∀ (fuel : Nat) (c : Option Nat) (lines : List String),
      (monitor_stdin fuel c lines).1 ≠ .returned) ∧
    (∀ (fuel k : Nat) (lines : List String),
      k < fuel → k ≤ lines.length →
        (monitor_stdin fuel (some k) lines).1 = .cancelled) := by
  exact ⟨monitor_stdin_none, monitor_stdin_no_result, monitor_stdin_cancel⟩

/-- C6: on Windows, `wait_for_exit` awaits a bare future with no natural
completion (it stays pending when no interrupt arrives); when the
runtime's interrupt propagation unwinds the suspension, the resulting
`KeyboardInterrupt` is caught locally and the coroutine returns normally
— in no case does the interruption escape `wait_for_exit`. -/
theorem wait_for_exit_win_spec :
    wait_for_exit_win false = AwaitResult.pending ∧
    wait_for_exit_win true = AwaitResult.value ∧
    ∀ b : Bool, wait_for_exit_win b ≠ AwaitResult.raised .keyboardInterrupt := by
  refine ⟨rfl, rfl, ?_⟩
  intro b
  cases b <;> decide

/-- Helper: with at least one delivered signal, the process run produces
the single shutdown trace of `main`'s `finally` block. -/
theorem processRun_cons (s : Sig) (rest : List Sig) (stop : StopResult)
    (ft : TaskId → Option ℚ) :
    processRun (s :: rest) stop ft = some (mainShutdown .normal stop ft).trace := by
  simp [processRun, setup_resolves_on_first s rest]

/-- Helper: the shutdown trace records exactly one stop attempt. -/
theorem mainShutdown_count_stop (w : WaitPhase) (stop : StopResult)
    (ft : TaskId → Option ℚ) :
    ((mainShutdown w stop ft).trace).count Ev.stopAttempted = 1 := by
  cases w <;> cases stop <;> rfl

/-- C4: for every sequence of termination triggers delivered during one
process run — including several signals — the shutdown sequence executes
at most once (its entry event, the stop attempt, appears at most once in
the run's trace), and with at least one trigger it executes exactly
once: further triggers are coalesced into the same already-set
termination event. -/
theorem shutdown_at_most_once :
    (∀ (sigs : List Sig) (stop : StopResult) (ft : TaskId → Option ℚ),
      shutdownCount (processRun sigs stop ft) ≤ 1) ∧
    (∀ (s : Sig) (rest : List Sig) (stop : StopResult) (ft : TaskId → Option ℚ),
      shutdownCount (processRun (s :: rest) stop ft) = 1) := by
  have key : ∀ (s : Sig) (rest : List Sig) (stop : StopResult)
      (ft : TaskId → Option ℚ),
      shutdownCount (processRun (s :: rest) stop ft) = 1 := by
    intro s rest stop ft
    rw [processRun_cons s rest stop ft]
    exact mainShutdown_count_stop .normal stop ft
  refine ⟨?_, key⟩
  intro sigs stop ft
  cases sigs with
  | nil => exact Nat.zero_le 1
  | cons s rest => exact le_of_eq (key s rest stop ft)

/-- C1: in the shutdown sequence, the stop attempt on the primary
service strictly precedes every cancel request — no cancel event occurs
in the portion of the trace before the (unique) stop attempt — and a
cancel request is issued to every one of the three tasks, whether the
stop call succeeded or failed. -/
theorem stop_before_cancel (stop : StopResult) (ft : TaskId → Option ℚ) :
    Ev.stopAttempted ∈ (cleanupFinally stop ft).trace ∧
    ((cleanupFinally stop ft).trace).count Ev.stopAttempted = 1 ∧
    (∀ t : TaskId, Ev.cancelRequested t ∈ (cleanupFinally stop ft).trace) ∧
    (∀ t : TaskId,
      Ev.cancelRequested t ∉
        ((cleanupFinally stop ft).trace).takeWhile
          (fun e => decide (e ≠ Ev.stopAttempted))) := by
  refine ⟨?_, ?_, ?_, ?_⟩
  · cases stop <;> simp [cleanupFinally, stopTryExcept]
  · cases stop <;> rfl
  · intro t
    cases stop <;> cases t <;> simp [cleanupFinally, stopTryExcept, allTasks]
  · intro t
    cases stop <;> cases t <;> simp [cleanupFinally, stopTryExcept, allTasks]

/-- C2: every exception raised by the primary service's `stop()` during
shutdown is caught locally by the surrounding `except Exception` clause
(which logs it); the remaining shutdown steps — the cancel request to
each task and the bounded join — still execute, and the exception never
escapes the shutdown sequence. -/
theorem stop_failure_contained (e : String) (ft : TaskId → Option ℚ) :
    (stopTryExcept (.failed e)).2 = Except.ok () ∧
    Ev.stopFailureLogged ∈ (cleanupFinally (.failed e) ft).trace ∧
    (∀ t : TaskId,
      Ev.cancelRequested t ∈ (cleanupFinally (.failed e) ft).trace) ∧
    Ev.joinWaited ∈ (cleanupFinally (.failed e) ft).trace ∧
    Ev.shutdownPrinted ∈ (cleanupFinally (.failed e) ft).trace ∧
    (cleanupFinally (.failed e) ft).escaped = Except.ok () := by
  refine ⟨rfl, ?_, ?_, ?_, ?_, rfl⟩
  · simp [cleanupFinally, stopTryExcept]
  · intro t
    cases t <;> simp [cleanupFinally, stopTryExcept, allTasks]
  · simp [cleanupFinally, stopTryExcept]
  · simp [cleanupFinally, stopTryExcept]

/-- C9: on both exit paths of the waiting phase — `await wait_for_exit()`
returning normally, or the orchestrator's own task being cancelled (the
`except asyncio.CancelledError` clause catches it) — the trace of the
`try/except/finally` construct ends with the complete `finally` cleanup
(stop attempt, all three cancel requests, bounded join, final print),
and nothing escapes the construct. -/
theorem cleanup_on_every_exit_path (w : WaitPhase) (stop : StopResult)
    (ft : TaskId → Option ℚ) :
    (∃ pre, (mainShutdown w stop ft).trace = pre ++ (cleanupFinally stop ft).trace) ∧
    Ev.stopAttempted ∈ (mainShutdown w stop ft).trace ∧
    (∀ t : TaskId, Ev.cancelRequested t ∈ (mainShutdown w stop ft).trace) ∧
    Ev.joinWaited ∈ (mainShutdown w stop ft).trace ∧
    Ev.shutdownPrinted ∈ (mainShutdown w stop ft).trace ∧
    (mainShutdown w stop ft).escaped = Except.ok () := by
  refine ⟨?_, ?_, ?_, ?_, ?_, ?_⟩
  · cases w
    · exact ⟨[], rfl⟩
    · exact ⟨[.cancelMsgPrinted], rfl⟩
  · cases w <;> cases stop <;> simp [mainShutdown, cleanupFinally, stopTryExcept]
  · intro t
    cases w <;> cases stop <;> cases t <;>
      simp [mainShutdown, cleanupFinally, stopTryExcept, allTasks]
  · cases w <;> cases stop <;> simp [mainShutdown, cleanupFinally, stopTryExcept]
  · cases w <;> cases stop <;> simp [mainShutdown, cleanupFinally, stopTryExcept]
  · cases w <;> cases stop <;> rfl

/-- Helper: a task that finishes within `T` has its completion time
bounded by `T`. -/
theorem getD_le_of_finishedWithin (ft : TaskId → Option ℚ) (t : TaskId)
    (T : ℚ) (h : finishedWithin ft t T = true) : (ft t).getD 0 ≤ T := by
  unfold finishedWithin at h
  cases hft : ft t with
  | none => rw [hft] at h; simp at h
  | some d =>
      rw [hft] at h
      simpa [hft] using of_decide_eq_true h

/-- Helper: when all tasks finish within a nonnegative `T`, the latest
completion time is at most `T`. -/
theorem foldr_max_le (tasks : List TaskId) (ft : TaskId → Option ℚ) (T : ℚ)
    (h0 : 0 ≤ T) (h : ∀ t ∈ tasks, finishedWithin ft t T = true) :
    tasks.foldr (fun t m => max ((ft t).getD 0) m) 0 ≤ T := by
  induction tasks with
  | nil => simpa using h0
  | cons t rest ih =>
      simp only [List.foldr_cons]
      exact max_le
        (getD_le_of_finishedWithin ft t T (h t (List.mem_cons_self t rest)))
        (ih fun x hx => h x (List.mem_cons_of_mem t hx))

/-- Helper: the bounded join returns within the timeout. -/
theorem asyncioWait_elapsed_le (tasks : List TaskId) (ft : TaskId → Option ℚ)
    (timeout : ℚ) (h0 : 0 ≤ timeout) :
    (asyncioWait tasks ft timeout).2.2 ≤ timeout := by
  unfold asyncioWait
  simp only
  split
  · next hall =>
      exact foldr_max_le tasks ft timeout h0
        (fun t ht => by simpa using (List.all_eq_true.mp hall) t ht)
  · exact le_refl timeout

/-- C3: the post-cancellation join is bounded by the fixed ceiling of 3
time units (`timeout=3.0`); the tasks not finished by the deadline are
exactly the pending ones, which are abandoned — the join event occurs
once, nothing but the final print follows it in the trace, there is no
retry — and the sequence runs to its final print regardless of each
task's completion behaviour. -/
theorem bounded_join (stop : StopResult) (ft : TaskId → Option ℚ) :
    joinTimeout = 3 ∧
    (cleanupFinally stop ft).elapsed ≤ joinTimeout ∧
    (∀ t : TaskId,
      t ∈ (cleanupFinally stop ft).pending ↔
        finishedWithin ft t joinTimeout = false) ∧
    ((cleanupFinally stop ft).trace).count Ev.joinWaited = 1 ∧
    (∃ tr, (cleanupFinally stop ft).trace =
      tr ++ [Ev.joinWaited, Ev.shutdownPrinted]) ∧
    (cleanupFinally stop ft).escaped = Except.ok () := by
  refine ⟨rfl, ?_, ?_, ?_, ?_, ?_⟩
  · have : (cleanupFinally stop ft).elapsed =
        (asyncioWait allTasks ft joinTimeout).2.2 := by
      cases stop <;> rfl
    rw [this]
    exact asyncioWait_elapsed_le allTasks ft joinTimeout (by norm_num [joinTimeout])
  · intro t
    have ht : t ∈ allTasks := by cases t <;> simp [allTasks]
    have hp : (cleanupFinally stop ft).pending =
        allTasks.filter (fun t => !finishedWithin ft t joinTimeout) := by
      cases stop <;> rfl
    rw [hp]
    simp [List.mem_filter, ht]
  · cases stop <;> rfl
  · cases stop
    · exact ⟨[.stopAttempted, .cancelRequested .stdinTask,
        .cancelRequested .xiaozhiTask, .cancelRequested .otaTask], rfl⟩
    · exact ⟨[.stopAttempted, .stopFailureLogged, .cancelRequested .stdinTask,
        .cancelRequested .xiaozhiTask, .cancelRequested .otaTask], rfl⟩
  · cases stop <;> rfl

/-! ### Configuration lemmas -/

theorem lookupA_setA_self (m : List (String × Val)) (k : String) (v : Val) :
    lookupA (setA m k v) k = some v := by
  induction m with
  | nil => simp [setA, lookupA]
  | cons p rest ih =>
      obtain ⟨k', v'⟩ := p
      by_cases h : k' = k
      · simp [setA, h, lookupA]
      · simp [setA, h, lookupA, ih]

theorem lookupA_setA_ne (m : List (String × Val)) (k k' : String) (v : Val)
    (h : k' ≠ k) : lookupA (setA m k v) k' = lookupA m k' := by
  induction m with
  | nil => simp [setA, lookupA, Ne.symm h]
  | cons p rest ih =>
      obtain ⟨a, b⟩ := p
      by_cases ha : a = k
      · subst ha
        simp [setA, lookupA, Ne.symm h]
      · simp [setA, ha, lookupA, ih]

theorem mcpEndpointStep_frame (c : Config) (validate : String → Bool)
    (k : String) (h : k ≠ "mcp_endpoint") :
    lookupA (mcpEndpointStep c validate) k = lookupA c k := by
  simp only [mcpEndpointStep]
  cases hm : lookupA c "mcp_endpoint" with
  | none => rfl
  | some v =>
      cases v with
      | map m => rfl
      | str s =>
          by_cases hc : s.contains placeholderMark
          · simp [hc]
          · by_cases hv : validate s
            · simp [hc, hv, lookupA_setA_ne _ _ _ _ h]
            · simp [hc, hv, lookupA_setA_ne _ _ _ _ h]

theorem authKeyStep_of_server (cfg : Config) (r : Nat)
    (sm : List (String × Val)) (h : lookupA cfg "server" = some (.map sm)) :
    authKeyStep cfg r = some (setA cfg "server"
      (.map (setA sm "auth_key" (.str (derivedAuthKey cfg r))))) := by
  simp only [authKeyStep, storeAuthKey, h]

theorem uuid4Hex_length (r : Nat) : (uuid4Hex r).length = 32 := by
  simp [uuid4Hex, String.length]

theorem uuid4Hex_ne_empty (r : Nat) : uuid4Hex r ≠ "" := by
  intro h
  have h32 := uuid4Hex_length r
  rw [h] at h32
  simp at h32

theorem str_empty_of_length_zero (s : String) (h : s.length = 0) : s = "" := by
  cases s with
  | mk data =>
      cases data with
      | nil => rfl
      | cons c cs => simp [String.length] at h

theorem derivedAuthKey_ne_empty (cfg : Config) (r : Nat) :
    derivedAuthKey cfg r ≠ "" := by
  unfold derivedAuthKey
  split
  · exact uuid4Hex_ne_empty r
  · next h => exact fun he => h (Or.inl he)

/-- C8: for every configuration with a server sub-mapping, startup
derives the auth key — the configured manager-api secret when it is
non-empty and free of the placeholder marker, a freshly generated secret
otherwise (absent and empty configured secrets read as `""`) — stores it
in the server sub-mapping under `auth_key`, and the stored key is a
non-empty string. -/
theorem auth_key_startup (cfg : Config) (r : Nat) (validate : String → Bool)
    (sm : List (String × Val)) (h : lookupA cfg "server" = some (.map sm)) :
    ∃ cfg', startupConfig cfg r validate = some cfg' ∧
      (∃ sm', lookupA cfg' "server" = some (.map sm') ∧
        lookupA sm' "auth_key" = some (.str (derivedAuthKey cfg r))) ∧
      derivedAuthKey cfg r ≠ "" ∧
      ((managerApiSecret cfg = "" ∨
          (managerApiSecret cfg).contains placeholderMark = true) →
        derivedAuthKey cfg r = uuid4Hex r) ∧
      (managerApiSecret cfg ≠ "" →
        (managerApiSecret cfg).contains placeholderMark = false →
        derivedAuthKey cfg r = managerApiSecret cfg) := by
  refine ⟨mcpEndpointStep (setA cfg "server"
      (.map (setA sm "auth_key" (.str (derivedAuthKey cfg r))))) validate,
    ?_, ?_, derivedAuthKey_ne_empty cfg r, ?_, ?_⟩
  · simp [startupConfig, authKeyStep_of_server cfg r sm h]
  · refine ⟨setA sm "auth_key" (.str (derivedAuthKey cfg r)), ?_,
      lookupA_setA_self sm "auth_key" _⟩
    rw [mcpEndpointStep_frame _ validate "server" (by decide)]
    exact lookupA_setA_self cfg "server" _
  · intro hbad
    unfold derivedAuthKey
    rcases hbad with hbad | hbad
    · rw [if_pos (Or.inl hbad)]
    · rw [if_pos (Or.inr (Or.inr hbad))]
  · intro h1 h2
    unfold derivedAuthKey
    rw [if_neg]
    rintro (he | hl | hc)
    · exact h1 he
    · exact h1 (str_empty_of_length_zero _ hl)
    · rw [h2] at hc
      cases hc

/-- Witness for C8 at a concrete configuration whose manager-api secret
is absent: the key is freshly generated, stored, and non-empty. -/
theorem auth_key_startup_witness :
    ∃ cfg', startupConfig [("server", Val.map [])] 0 (fun _ => false) = some cfg' ∧
      (∃ sm', lookupA cfg' "server" = some (.map sm') ∧
        lookupA sm' "auth_key" =
          some (.str (derivedAuthKey [("server", Val.map [])] 0))) ∧
      derivedAuthKey [("server", Val.map [])] 0 ≠ "" ∧
      ((managerApiSecret [("server", Val.map [])] = "" ∨
          (managerApiSecret [("server", Val.map [])]).contains placeholderMark
            = true) →
        derivedAuthKey [("server", Val.map [])] 0 = uuid4Hex 0) ∧
      (managerApiSecret [("server", Val.map [])] ≠ "" →
        (managerApiSecret [("server", Val.map [])]).contains placeholderMark
          = false →
        derivedAuthKey [("server", Val.map [])] 0 =
          managerApiSecret [("server", Val.map [])]) :=
  auth_key_startup [("server", Val.map [])] 0 (fun _ => false) [] (by simp [lookupA])

/-- C10: startup mutates at most two configuration entries.  Every
top-level key other than `"server"` and `"mcp_endpoint"` keeps its
value; inside the server sub-mapping only `"auth_key"` changes; and the
`"mcp_endpoint"` entry, when present as a marker-free string, is
rewritten to the call address if it validates and overwritten with the
placeholder text if it does not. -/
theorem startup_frame (cfg : Config) (r : Nat) (validate : String → Bool)
    (sm : List (String × Val)) (h : lookupA cfg "server" = some (.map sm)) :
    ∃ cfg', startupConfig cfg r validate = some cfg' ∧
      (∀ k, k ≠ "server" → k ≠ "mcp_endpoint" →
        lookupA cfg' k = lookupA cfg k) ∧
      (∃ sm', lookupA cfg' "server" = some (.map sm') ∧
        ∀ k, k ≠ "auth_key" → lookupA sm' k = lookupA sm k) ∧
      (∀ s : String, lookupA cfg "mcp_endpoint" = some (.str s) →
        s.contains placeholderMark = false →
        lookupA cfg' "mcp_endpoint" =
          some (.str (if validate s then s.replace "/mcp/" "/call/"
            else invalidEndpointText))) := by
  refine ⟨mcpEndpointStep (setA cfg "server"
      (.map (setA sm "auth_key" (.str (derivedAuthKey cfg r))))) validate,
    ?_, ?_, ?_, ?_⟩
  · simp [startupConfig, authKeyStep_of_server cfg r sm h]
  · intro k hks hkm
    rw [mcpEndpointStep_frame _ validate k hkm]
    exact lookupA_setA_ne cfg "server" k _ hks
  · refine ⟨setA sm "auth_key" (.str (derivedAuthKey cfg r)), ?_, ?_⟩
    · rw [mcpEndpointStep_frame _ validate "server" (by decide)]
      exact lookupA_setA_self cfg "server" _
    · intro k hk
      exact lookupA_setA_ne sm "auth_key" k _ hk
  · intro s hs hmark
    have hs1 : lookupA (setA cfg "server"
        (.map (setA sm "auth_key" (.str (derivedAuthKey cfg r)))))
        "mcp_endpoint" = some (.str s) := by
      rw [lookupA_setA_ne cfg "server" "mcp_endpoint" _ (by decide)]
      exact hs
    simp only [mcpEndpointStep, hs1, hmark]
    by_cases hv : validate s
    · simp [hv, lookupA_setA_self]
    · simp [hv, lookupA_setA_self]

/-- Witness for C10 at a concrete configuration holding a server
sub-mapping, a valid marker-free endpoint and one unrelated entry. -/
theorem startup_frame_witness :
    ∃ cfg', startupConfig
        [("server", Val.map []), ("mcp_endpoint", Val.str "ws://h/mcp/x"),
          ("log", Val.str "info")] 0 (fun _ => true) = some cfg' ∧
      (∀ k, k ≠ "server" → k ≠ "mcp_endpoint" →
        lookupA cfg' k = lookupA
          [("server", Val.map []), ("mcp_endpoint", Val.str "ws://h/mcp/x"),
            ("log", Val.str "info")] k) ∧
      (∃ sm', lookupA cfg' "server" = some (.map sm') ∧
        ∀ k, k ≠ "auth_key" → lookupA sm' k = lookupA [] k) ∧
      (∀ s : String, lookupA
          [("server", Val.map []), ("mcp_endpoint", Val.str "ws://h/mcp/x"),
            ("log", Val.str "info")] "mcp_endpoint" = some (.str s) →
        s.contains placeholderMark = false →
        lookupA cfg' "mcp_endpoint" =
          some (.str (if (fun _ => true) s then s.replace "/mcp/" "/call/"
            else invalidEndpointText))) :=
  startup_frame
    [("server", Val.map []), ("mcp_endpoint", Val.str "ws://h/mcp/x"),
      ("log", Val.str "info")] 0 (fun _ => true) [] (by simp [lookupA])

end XiaozhiApp
